import Mathlib

/-!
# qmk-gui core — shallow embedding and verification

Shallow embedding of the LSP supervision core of the qmk-gui repository:

* `clangdlsp.ClangdServer.Initialize` (src/unnamed/part_000) — the extended
  initialize handshake and its double-decode response merge;
* `cmd.CmdCloser` (src/cmd/cmd.go) — the process supervisor: watchdog,
  `Done`, `Close`;
* `lsp.LSPDocument` / `lsp.LSPDocumentCollection` (src/lsp/documents.go) —
  document open/close bookkeeping;
* `lsp.LSPNotifications` (src/lsp/notifications.go) and
  `lsp.LSPManager.HandleLSPMsg` (src/unnamed/part_003) — the notification
  router and the background-index completion signal.

Go structs become Lean structures, Go methods become functions that pass
state explicitly, fallible operations return `Except`/`Option`, and the
effects that matter to the properties (notifications sent to the server,
stream closes, context cancellation) are recorded in explicit traces.
-/

namespace QmkGui

/-! ## A model of JSON values

`encoding/json`'s dynamic value type, as far as the decoded payloads here
need it.  An object is a list of key/value pairs in document order; Go's
decoder processes members in order, so a later duplicate key overwrites an
earlier one. -/

inductive Json where
  | null
  | bool (b : Bool)
  | num (n : Int)
  | str (s : String)
  | arr (elems : List Json)
  | obj (fields : List (String × Json))

/-- The value a sequence of object members in document order leaves for key
`k`: the last member with that key wins, as in `encoding/json`. -/
def lookupLast (k : String) : List (String × Json) → Option Json
  | [] => none
  | kv :: rest =>
    match lookupLast k rest with
    | some v => some v
    | none => if kv.1 = k then some kv.2 else none

/-! ## clangdlsp: the extended initialize result (src/unnamed/part_000)

Only the capability fields the handshake contract is about are embedded:
the standard result's `capabilities.workspaceSymbolProvider` (an
`interface{}` field in `go.lsp.dev/protocol`, so it accepts any JSON value
and its zero value is `nil`) and the clangd extension's
`capabilities.astProvider` (a `bool` field).  Other members of the payload
are ignored by these decoders exactly as `encoding/json` ignores unknown
keys. -/

/-- `protocol.ServerCapabilities`, restricted to the workspace-symbol flag.
`none` is the zero value of the `interface{}` field. -/
structure PServerCapabilities where
  workspaceSymbolProvider : Option Json

/-- Zero value of `protocol.ServerCapabilities`. -/
def PServerCapabilities.zero : PServerCapabilities := ⟨none⟩

/-- `protocol.InitializeResult`: the standard result shape. -/
structure PInitializeResult where
  capabilities : PServerCapabilities

def PInitializeResult.zero : PInitializeResult := ⟨PServerCapabilities.zero⟩

/-- `clangdlsp.ServerCapabilities`: the vendor extension shape, with the
AST-provider flag (`json:"astProvider"`, a Go `bool`). -/
structure CServerCapabilities where
  astProvider : Bool
deriving DecidableEq

def CServerCapabilities.zero : CServerCapabilities := ⟨false⟩

/-- `clangdlsp.InitializeResult`: embeds `protocol.InitializeResult` and
declares its own `ServerCapabilities` field, also under the JSON key
`"capabilities"`.  By Go's field-shadowing rule the shallower field wins
that key, so a decode of this struct routes `"capabilities"` to
`serverCapabilities` only and never to the embedded standard shape. -/
structure CInitializeResult where
  base : PInitializeResult
  serverCapabilities : CServerCapabilities

def CInitializeResult.zero : CInitializeResult :=
  ⟨PInitializeResult.zero, CServerCapabilities.zero⟩

/-- One object member applied to `clangdlsp.ServerCapabilities`:
`"astProvider"` must be a boolean, other keys are ignored. -/
def applyCCapsField (c : CServerCapabilities) (kv : String × Json) :
    Except String CServerCapabilities :=
  if kv.1 = "astProvider" then
    match kv.2 with
    | Json.bool b => .ok { c with astProvider := b }
    | _ => .error "cannot unmarshal value into Go bool field astProvider"
  else
    .ok c

def unmarshalCCapsFields (c : CServerCapabilities) :
    List (String × Json) → Except String CServerCapabilities
  | [] => .ok c
  | kv :: rest =>
    match applyCCapsField c kv with
    | .ok c' => unmarshalCCapsFields c' rest
    | .error e => .error e

/-- `json.Unmarshal` into `clangdlsp.ServerCapabilities`, merging into the
current value as Go does. -/
def unmarshalCCaps (c : CServerCapabilities) : Json → Except String CServerCapabilities
  | Json.obj fields => unmarshalCCapsFields c fields
  | Json.null => .ok c
  | _ => .error "cannot unmarshal value into Go struct ServerCapabilities"

/-- One object member applied to `protocol.ServerCapabilities`: the
workspace-symbol flag is an `interface{}`, so any value is accepted. -/
def applyPCapsField (c : PServerCapabilities) (kv : String × Json) :
    PServerCapabilities :=
  if kv.1 = "workspaceSymbolProvider" then
    { c with workspaceSymbolProvider := some kv.2 }
  else
    c

def unmarshalPCapsFields (c : PServerCapabilities) :
    List (String × Json) → PServerCapabilities
  | [] => c
  | kv :: rest => unmarshalPCapsFields (applyPCapsField c kv) rest

def unmarshalPCaps (c : PServerCapabilities) : Json → Except String PServerCapabilities
  | Json.obj fields => .ok (unmarshalPCapsFields c fields)
  | Json.null => .ok c
  | _ => .error "cannot unmarshal value into Go struct ServerCapabilities"

/-- One object member applied to `protocol.InitializeResult`:
`"capabilities"` decodes into the standard capabilities, merging. -/
def applyPResFields (r : PInitializeResult) :
    List (String × Json) → Except String PInitializeResult
  | [] => .ok r
  | kv :: rest =>
    if kv.1 = "capabilities" then
      match unmarshalPCaps r.capabilities kv.2 with
      | .ok caps => applyPResFields { r with capabilities := caps } rest
      | .error e => .error e
    else
      applyPResFields r rest

/-- `json.Unmarshal` into `protocol.InitializeResult`. -/
def unmarshalPInitializeResult (r : PInitializeResult) :
    Json → Except String PInitializeResult
  | Json.obj fields => applyPResFields r fields
  | Json.null => .ok r
  | _ => .error "cannot unmarshal value into Go struct InitializeResult"

/-- One object member applied to `clangdlsp.InitializeResult`.  The
`"capabilities"` key is claimed by the shallower `ServerCapabilities`
field (Go shadowing), so the embedded standard result is left untouched
here. -/
def applyCResFields (r : CInitializeResult) :
    List (String × Json) → Except String CInitializeResult
  | [] => .ok r
  | kv :: rest =>
    if kv.1 = "capabilities" then
      match unmarshalCCaps r.serverCapabilities kv.2 with
      | .ok caps => applyCResFields { r with serverCapabilities := caps } rest
      | .error e => .error e
    else
      applyCResFields r rest

/-- `json.Unmarshal` into `clangdlsp.InitializeResult`. -/
def unmarshalCInitializeResult (r : CInitializeResult) :
    Json → Except String CInitializeResult
  | Json.obj fields => applyCResFields r fields
  | Json.null => .ok r
  | _ => .error "cannot unmarshal value into Go struct InitializeResult"

/-- `ClangdServer.Initialize` (src/unnamed/part_000, lines 58–81): the call
decodes the server's reply into an `interface{}`, re-marshals it (an
identity on the JSON value), unmarshals that one payload into the extended
result `res`, then unmarshals the same payload a second time into the
embedded standard result `res.InitializeResult`, and returns the merged
struct. -/
def ClangdServer.Initialize (payload : Json) : Except String CInitializeResult :=
  match unmarshalCInitializeResult CInitializeResult.zero payload with
  | .error e => .error ("failed to unmarshall response into base struct: " ++ e)
  | .ok res =>
    match unmarshalPInitializeResult res.base payload with
    | .error e => .error ("failed to unmarshall response into embedded struct: " ++ e)
    | .ok base => .ok { res with base := base }

/-! ## cmd.CmdCloser: the process supervisor (src/cmd/cmd.go)

The supervisor's lifecycle state is the cancellable context created by
`context.WithCancel` in `NewCmdCloser`.  Per the Go context contract,
`cancelCtx` is idempotent and the `Done` channel is closed exactly once,
at the first cancellation; `doneFires` counts those closures.  Two events
can reach the cancel: the watchdog goroutine observing `cmd.Wait` return
(the process exited on its own), and an explicit `Close` call.  The
watchdog's `select` also returns without cancelling when `Done` has
already fired; both branches coincide with the idempotent cancel. -/

/-- Lifecycle state of a `CmdCloser`: its cancellable context and how many
times the `Done` channel has been closed. -/
structure CmdCloserState where
  cancelled : Bool
  doneFires : Nat
deriving Repr, DecidableEq

/-- State right after a successful `NewCmdCloser`: context live, `Done`
not yet fired. -/
def NewCmdCloserState : CmdCloserState := { cancelled := false, doneFires := 0 }

/-- `cmd.cancelCtx()`: Go's `context.WithCancel` cancel function.  The
first call cancels the context and closes the `Done` channel; later calls
are no-ops. -/
def CmdCloserState.cancelCtx (s : CmdCloserState) : CmdCloserState :=
  if s.cancelled then s
  else { cancelled := true, doneFires := s.doneFires + 1 }

/-- The two concurrent paths that can end the process lifetime. -/
inductive CmdEvent where
  | procExit
  | closeCall
deriving Repr, DecidableEq

/-- One interleaving step.  `procExit`: `cmd.Wait()` returns inside the
watchdog's helper goroutine and the watchdog's `select` either cancels the
context or, if `Done` already fired, returns — both equal the idempotent
cancel.  `closeCall`: `Close` cancels the context first (stream closing is
modelled separately in `CmdCloser.Close`). -/
def stepCmd (s : CmdCloserState) : CmdEvent → CmdCloserState
  | CmdEvent.procExit => s.cancelCtx
  | CmdEvent.closeCall => s.cancelCtx

/-- Run an arbitrary interleaving of watchdog and explicit-close events. -/
def runCmd (s : CmdCloserState) (evs : List CmdEvent) : CmdCloserState :=
  evs.foldl stepCmd s

/-- The three pipes owned by the supervisor. -/
inductive CmdStream where
  | stdin
  | stdout
  | stderr
deriving Repr, DecidableEq

/-- Observable actions `CmdCloser.Close` performs, in order. -/
inductive CloseAction where
  | cancelCtx
  | closeStream (s : CmdStream)
deriving Repr, DecidableEq

/-- `CmdCloser.Close` (src/cmd/cmd.go, lines 138–154), given the error each
stream's `Close` would return (`none` = success).  The body cancels the
context, then closes stdin, stdout, stderr in that order, returning as soon
as one close fails.  The result is the trace of actions performed and the
returned error. -/
def CmdCloser.Close (eStdin eStdout eStderr : Option String) :
    List CloseAction × Option String :=
  match eStdin with
  | some e =>
    ([CloseAction.cancelCtx, CloseAction.closeStream CmdStream.stdin],
      some ("failed to close stdin: " ++ e))
  | none =>
    match eStdout with
    | some e =>
      ([CloseAction.cancelCtx, CloseAction.closeStream CmdStream.stdin,
        CloseAction.closeStream CmdStream.stdout],
        some ("failed to close stdout: " ++ e))
    | none =>
      match eStderr with
      | some e =>
        ([CloseAction.cancelCtx, CloseAction.closeStream CmdStream.stdin,
          CloseAction.closeStream CmdStream.stdout,
          CloseAction.closeStream CmdStream.stderr],
          some ("failed to close stderr: " ++ e))
      | none =>
        ([CloseAction.cancelCtx, CloseAction.closeStream CmdStream.stdin,
          CloseAction.closeStream CmdStream.stdout,
          CloseAction.closeStream CmdStream.stderr],
          none)

/-! ## lsp documents (src/lsp/documents.go)

`LSPDocument.Open` reads the file and sends `didOpen`; `Close` sends
`didClose`.  The outside world is explicit: a filesystem (`os.ReadFile`
keyed by the document URI; path resolution via `uri.Filename()` is a fixed
bijection and is folded into the key), the server's outcome for each
notification (`respond`, indexed by the notification and its position in
the send order, standing for the `protocol.Server` the collection holds),
and the trace of notifications sent so far. -/

/-- A notification issued to the LSP server. -/
inductive LSPNotif where
  | didOpen (uri : String) (text : String)
  | didClose (uri : String)
deriving Repr, DecidableEq

/-- The environment documents.go interacts with. -/
structure LSPWorld where
  files : String → Except String String
  respond : LSPNotif → Nat → Option String
  sent : List LSPNotif

/-- `lsp.LSPDocument`: the per-file open/close wrapper.  Its `server` field
is the shared `protocol.Server`, modelled by `LSPWorld.respond`. -/
structure LSPDocument where
  uri : String
deriving Repr, DecidableEq

/-- `LSPDocument.Open` (src/lsp/documents.go, lines 22–45): read the file's
full contents; on read failure return the wrapped error without calling the
server; otherwise call `DidOpen` with language id "c" and version 0 and
wrap any server error. -/
def LSPDocument.Open (doc : LSPDocument) (w : LSPWorld) :
    LSPWorld × Option String :=
  match w.files doc.uri with
  | .error e => (w, some ("failed to read file contents: " ++ e))
  | .ok text =>
    let notif := LSPNotif.didOpen doc.uri text
    let res := w.respond notif w.sent.length
    let w' := { w with sent := w.sent ++ [notif] }
    match res with
    | some e => (w', some ("failed to call LSP open: " ++ e))
    | none => (w', none)

/-- `LSPDocument.Close` (src/lsp/documents.go, lines 47–60): call
`DidClose` and wrap any server error. -/
def LSPDocument.Close (doc : LSPDocument) (w : LSPWorld) :
    LSPWorld × Option String :=
  let notif := LSPNotif.didClose doc.uri
  let res := w.respond notif w.sent.length
  let w' := { w with sent := w.sent ++ [notif] }
  match res with
  | some e => (w', some ("failed to call LSP close: " ++ e))
  | none => (w', none)

/-- `lsp.LSPDocumentCollection`: the tracked documents (its `server` field
is again the shared responder in `LSPWorld`). -/
structure LSPDocumentCollection where
  documents : List LSPDocument
deriving Repr, DecidableEq

/-- The body of `LSPDocumentCollection.Open` (src/lsp/documents.go, lines
69–81) exactly as written, acting on the receiver it was given: build the
document, run `doc.Open`, and on success append the document to the
receiver's slice. -/
def LSPDocumentCollection.OpenBody (coll : LSPDocumentCollection)
    (uri : String) (w : LSPWorld) :
    LSPDocumentCollection × LSPWorld × Option String :=
  let doc : LSPDocument := { uri := uri }
  match LSPDocument.Open doc w with
  | (w', some e) => (coll, w', some ("failed to open document: " ++ e))
  | (w', none) =>
    ({ coll with documents := coll.documents ++ [doc] }, w', none)

/-- `LSPDocumentCollection.Open` as the caller observes it.  The Go method
has a value receiver, so the body runs on a copy of the collection; the
copy's appended slice is discarded when the method returns and the caller's
collection is unchanged. -/
def LSPDocumentCollection.Open (coll : LSPDocumentCollection)
    (uri : String) (w : LSPWorld) :
    LSPDocumentCollection × LSPWorld × Option String :=
  let r := LSPDocumentCollection.OpenBody coll uri w
  (coll, r.2.1, r.2.2)

/-- The loop of `CloseAll` (src/lsp/documents.go, lines 83–97): close each
tracked document in order, appending a formatted entry to `errs` for each
failure and continuing. -/
def closeLoop : List LSPDocument → LSPWorld → List String →
    LSPWorld × List String
  | [], w, errs => (w, errs)
  | doc :: rest, w, errs =>
    match LSPDocument.Close doc w with
    | (w', some e) =>
      closeLoop rest w' (errs ++ ["failed to close " ++ doc.uri ++ ": " ++ e])
    | (w', none) => closeLoop rest w' errs

/-- `LSPDocumentCollection.CloseAll` (src/lsp/documents.go, lines 83–97):
run the close loop over every tracked document; if any entries were
collected, return them joined by ", " as one error, else nil. -/
def LSPDocumentCollection.CloseAll (coll : LSPDocumentCollection)
    (w : LSPWorld) : LSPWorld × Option String :=
  let r := closeLoop coll.documents w []
  if r.2.length > 0 then (r.1, some (String.intercalate ", " r.2))
  else (r.1, none)

/-- `CloseAll` as the caller observes it: the value receiver means the
caller's collection is returned unchanged alongside the method's results. -/
def LSPDocumentCollection.CloseAllCaller (coll : LSPDocumentCollection)
    (w : LSPWorld) : LSPDocumentCollection × LSPWorld × Option String :=
  let r := LSPDocumentCollection.CloseAll coll w
  (coll, r.1, r.2)

/-! ## lsp notifications and the message router
    (src/lsp/notifications.go, src/unnamed/part_003)

`LSPNotifications.backgroundIndexDone` is a Go channel created by
`make(chan struct{})` — capacity 0.  A Go channel send completes
immediately only when a receiver is blocked on the channel or the buffer
has room; otherwise the sender blocks.  The channel is modelled by its
capacity, its current buffer occupancy, and the number of currently
blocked receivers. -/

/-- A Go channel's synchronization state. -/
structure GoChan where
  capacity : Nat
  buffered : Nat
  receivers : Nat
deriving Repr, DecidableEq

/-- `make(chan struct-type, cap)` with no one yet waiting. -/
def GoChan.make (cap : Nat) : GoChan :=
  { capacity := cap, buffered := 0, receivers := 0 }

/-- A send on a Go channel: `some` with the post-state when the send
completes immediately (rendezvous with a blocked receiver, or buffer
space), `none` when the sender blocks. -/
def GoChan.trySend (c : GoChan) : Option GoChan :=
  if 0 < c.receivers then some { c with receivers := c.receivers - 1 }
  else if c.buffered < c.capacity then some { c with buffered := c.buffered + 1 }
  else none

/-- `lsp.LSPNotifications` (src/lsp/notifications.go): holds the
background-index completion channel. -/
structure LSPNotifications where
  backgroundIndexDone : GoChan
deriving Repr, DecidableEq

/-- `NewLSPNotifications`: the channel is created unbuffered. -/
def NewLSPNotifications : LSPNotifications :=
  { backgroundIndexDone := GoChan.make 0 }

/-- The slice of `lsp.LSPManager` state that `HandleLSPMsg` touches. -/
structure LSPManagerState where
  lspNotifications : LSPNotifications
deriving Repr, DecidableEq

/-- `protocol.MethodProgress`. -/
def MethodProgress : String := "$/progress"

/-- Modelled from the spec: `clangdlsp.ProgressTokenBackgroundIndexProgress`
is defined in the clangdlsp package but its file is not among the sources;
§3 and §6 of the spec fix the well-known token as the literal
`"backgroundIndexProgress"`. -/
def ProgressTokenBackgroundIndexProgress : String := "backgroundIndexProgress"

/-- Modelled from the spec: `clangdlsp.BackgroundIndexProgressEnd`, the
`kind` discriminator value denoting completion ("a `kind` discriminator
including an `end` value"). -/
def BackgroundIndexProgressEnd : String := "end"

/-- `protocol.ProgressParams` restricted to what the router reads: the
token, rendered as by `ProgressToken.String()`.  The token field accepts a
JSON string or number; an absent token leaves the zero token, which does
not match any well-known token. -/
structure ProgressParams where
  token : String
deriving Repr, DecidableEq

/-- Decode the minimal progress envelope (`json.Unmarshal` into
`protocol.ProgressParams`): the payload must be an object (or null), and a
present `token` member must be a string or a number. -/
def unmarshalProgressParams (params : Json) : Except String ProgressParams :=
  match params with
  | Json.null => .ok { token := "" }
  | Json.obj fields =>
    match lookupLast "token" fields with
    | none => .ok { token := "" }
    | some (Json.str s) => .ok { token := s }
    | some (Json.num n) => .ok { token := toString n }
    | some _ => .error "cannot unmarshal value into Go ProgressToken"
  | _ => .error "cannot unmarshal value into Go struct ProgressParams"

/-- Modelled from the spec: `clangdlsp.BackgroundIndexProgressParams`, the
"second, richer payload carrying a completion `kind`" — a `value` envelope
whose `kind` member is a string. -/
structure BackgroundIndexProgressParams where
  kind : String
deriving Repr, DecidableEq

/-- Decode the richer background-index payload: `value` must be an object
whose `kind` member, when present, is a string.  Absent members leave Go
zero values. -/
def unmarshalBackgroundIndexProgressParams (params : Json) :
    Except String BackgroundIndexProgressParams :=
  match params with
  | Json.null => .ok { kind := "" }
  | Json.obj fields =>
    match lookupLast "value" fields with
    | none => .ok { kind := "" }
    | some Json.null => .ok { kind := "" }
    | some (Json.obj vfields) =>
      match lookupLast "kind" vfields with
      | none => .ok { kind := "" }
      | some (Json.str s) => .ok { kind := s }
      | some _ => .error "cannot unmarshal value into Go string field kind"
    | some _ => .error "cannot unmarshal value into Go struct value"
  | _ => .error "cannot unmarshal value into Go struct BackgroundIndexProgressParams"

/-- How one `HandleLSPMsg` invocation ends. -/
inductive HandlerOutcome where
  /-- The handler returned an error; no reply was sent. -/
  | errored (msg : String)
  /-- The handler is stuck sending on `backgroundIndexDone`: the channel
  send has not completed, so neither the reply nor the return happened. -/
  | blockedOnPublish
  /-- The handler sent the null reply and returned nil; the channel is in
  the given state. -/
  | replied (chanAfter : GoChan)
deriving Repr, DecidableEq

/-- `LSPManager.HandleLSPMsg` (src/unnamed/part_003, lines 40–67).  If the
method is `$/progress`, decode the envelope (returning the wrapped error on
failure); if the token is the background-index token, decode the richer
payload (returning the wrapped error on failure); if its kind is "end",
send on the unbuffered `backgroundIndexDone` channel — a blocking Go send.
Every path that falls through replies null and returns the reply's nil
error. -/
def HandleLSPMsg (m : LSPManagerState) (method : String) (params : Json) :
    HandlerOutcome :=
  let c := m.lspNotifications.backgroundIndexDone
  if method = MethodProgress then
    match unmarshalProgressParams params with
    | .error e =>
      .errored ("failed to unmarshall progress notification params: " ++ e)
    | .ok p =>
      if p.token = ProgressTokenBackgroundIndexProgress then
        match unmarshalBackgroundIndexProgressParams params with
        | .error e =>
          .errored ("failed to unmarshall background index progress params: " ++ e)
        | .ok bg =>
          if bg.kind = BackgroundIndexProgressEnd then
            match c.trySend with
            | some c' => .replied c'
            | none => .blockedOnPublish
          else .replied c
      else .replied c
  else .replied c

/-- Whether `HandleLSPMsg` sends the null reply, stated from the message
alone: it does unless progress decoding fails or it must publish on the
completion channel with no receiver able to take the send. -/
def repliesNullSpec (m : LSPManagerState) (method : String) (params : Json) :
    Bool :=
  let c := m.lspNotifications.backgroundIndexDone
  if method = MethodProgress then
    match unmarshalProgressParams params with
    | .error _ => false
    | .ok p =>
      if p.token = ProgressTokenBackgroundIndexProgress then
        match unmarshalBackgroundIndexProgressParams params with
        | .error _ => false
        | .ok bg =>
          if bg.kind = BackgroundIndexProgressEnd then c.trySend.isSome
          else true
      else true
  else true

/-- `true` iff the outcome is a sent null reply. -/
def HandlerOutcome.repliedNull : HandlerOutcome → Bool
  | .replied _ => true
  | _ => false

/-! ## Lemmas on the initialize double-decode -/

/-- A successful decode of `clangdlsp.ServerCapabilities` members leaves
`astProvider` at the last `"astProvider"` member's boolean (all its
occurrences are booleans), or at the incoming value when the key is
absent. -/
theorem unmarshalCCapsFields_ok :
    ∀ (fs : List (String × Json)) (c c' : CServerCapabilities),
      unmarshalCCapsFields c fs = .ok c' →
      (∀ v, lookupLast "astProvider" fs = some v → ∃ b, v = Json.bool b) ∧
      c'.astProvider =
        (match lookupLast "astProvider" fs with
          | some (Json.bool b) => b
          | _ => c.astProvider) := by
  intro fs
  induction fs with
  | nil =>
    intro c c' h
    simp only [unmarshalCCapsFields] at h
    cases h
    exact ⟨by intro v hv; simp [lookupLast] at hv, rfl⟩
  | cons kv rest ih =>
    intro c c' h
    simp only [unmarshalCCapsFields, applyCCapsField] at h
    by_cases hk : kv.1 = "astProvider"
    · simp only [hk, if_pos rfl] at h
      cases hv : kv.2 with
      | bool b =>
        rw [hv] at h
        simp only [] at h
        obtain ⟨hall, hval⟩ := ih _ _ h
        constructor
        · intro v hlv
          simp only [lookupLast] at hlv
          cases hrest : lookupLast "astProvider" rest with
          | some v' =>
            rw [hrest] at hlv
            simp at hlv
            exact hlv ▸ hall v' hrest
          | none =>
            rw [hrest] at hlv
            simp [hk, hv] at hlv
            exact ⟨b, hlv.symm⟩
        · simp only [lookupLast]
          cases hrest : lookupLast "astProvider" rest with
          | some v' =>
            rw [hrest] at hval
            obtain ⟨b', hb'⟩ := hall v' hrest
            subst hb'
            simpa using hval
          | none =>
            rw [hrest] at hval
            simp [hk, hv]
            simpa using hval
      | null => rw [hv] at h; simp at h
      | num n => rw [hv] at h; simp at h
      | str s => rw [hv] at h; simp at h
      | arr xs => rw [hv] at h; simp at h
      | obj gs => rw [hv] at h; simp at h
    · simp only [hk, if_neg hk] at h
      obtain ⟨hall, hval⟩ := ih _ _ h
      have hlk : lookupLast "astProvider" (kv :: rest) =
          lookupLast "astProvider" rest := by
        simp only [lookupLast]
        cases lookupLast "astProvider" rest with
        | some v' => rfl
        | none => simp [hk]
      rw [hlk]
      exact ⟨hall, hval⟩

/-- Decoding `protocol.ServerCapabilities` members leaves the
workspace-symbol field at the last `"workspaceSymbolProvider"` member's
value (any JSON value is accepted into the `interface{}` field), or at the
incoming value when the key is absent. -/
theorem unmarshalPCapsFields_wsp :
    ∀ (fs : List (String × Json)) (c : PServerCapabilities),
      (unmarshalPCapsFields c fs).workspaceSymbolProvider =
        (match lookupLast "workspaceSymbolProvider" fs with
          | some v => some v
          | none => c.workspaceSymbolProvider) := by
  intro fs
  induction fs with
  | nil => intro c; simp [unmarshalPCapsFields, lookupLast]
  | cons kv rest ih =>
    intro c
    simp only [unmarshalPCapsFields, lookupLast]
    rw [ih]
    cases hrest : lookupLast "workspaceSymbolProvider" rest with
    | some v => simp
    | none =>
      by_cases hk : kv.1 = "workspaceSymbolProvider"
      · simp [applyPCapsField, hk]
      · simp [applyPCapsField, hk]

/-- A successful decode of the extended `clangdlsp.InitializeResult` never
touches the embedded standard result (the `"capabilities"` key is shadowed
by the extension's own field), and routes the last `"capabilities"`
object's `"astProvider"` boolean into the extension capabilities. -/
theorem applyCResFields_ok :
    ∀ (fs : List (String × Json)) (r r' : CInitializeResult),
      applyCResFields r fs = .ok r' →
      r'.base = r.base ∧
      (lookupLast "capabilities" fs = none →
        r'.serverCapabilities = r.serverCapabilities) ∧
      (∀ cfs a, lookupLast "capabilities" fs = some (Json.obj cfs) →
        lookupLast "astProvider" cfs = some (Json.bool a) →
        r'.serverCapabilities.astProvider = a) := by
  intro fs
  induction fs with
  | nil =>
    intro r r' h
    simp only [applyCResFields] at h
    cases h
    refine ⟨rfl, fun _ => rfl, ?_⟩
    intro cfs a hc
    simp [lookupLast] at hc
  | cons kv rest ih =>
    intro r r' h
    simp only [applyCResFields] at h
    by_cases hk : kv.1 = "capabilities"
    · simp only [hk, if_pos rfl] at h
      cases hc : unmarshalCCaps r.serverCapabilities kv.2 with
      | error e => rw [hc] at h; simp at h
      | ok caps =>
        rw [hc] at h
        simp only [] at h
        obtain ⟨hbase, hnone, hlast⟩ := ih _ _ h
        refine ⟨hbase, ?_, ?_⟩
        · intro habs
          simp only [lookupLast] at habs
          cases hrest : lookupLast "capabilities" rest with
          | some v => rw [hrest] at habs; simp at habs
          | none => rw [hrest] at habs; simp [hk] at habs
        · intro cfs a hcap hast
          simp only [lookupLast] at hcap
          cases hrest : lookupLast "capabilities" rest with
          | some v =>
            rw [hrest] at hcap
            simp at hcap
            exact hlast cfs a (hcap ▸ hrest) hast
          | none =>
            rw [hrest] at hcap
            simp [hk] at hcap
            have hr' : r'.serverCapabilities = caps := hnone hrest
            rw [hcap] at hc
            simp only [unmarshalCCaps] at hc
            have := (unmarshalCCapsFields_ok cfs r.serverCapabilities caps hc).2
            rw [hr', this, hast]
    · simp only [hk, if_neg hk] at h
      obtain ⟨hbase, hnone, hlast⟩ := ih _ _ h
      have hlk : lookupLast "capabilities" (kv :: rest) =
          lookupLast "capabilities" rest := by
        simp only [lookupLast]
        cases lookupLast "capabilities" rest with
        | some v => rfl
        | none => simp [hk]
      rw [hlk]
      exact ⟨hbase, hnone, hlast⟩

/-- A successful decode of the standard `protocol.InitializeResult` routes
the last `"capabilities"` object's `"workspaceSymbolProvider"` member into
the standard capabilities. -/
theorem applyPResFields_ok :
    ∀ (fs : List (String × Json)) (r r' : PInitializeResult),
      applyPResFields r fs = .ok r' →
      (lookupLast "capabilities" fs = none → r' = r) ∧
      (∀ cfs wv, lookupLast "capabilities" fs = some (Json.obj cfs) →
        lookupLast "workspaceSymbolProvider" cfs = some wv →
        r'.capabilities.workspaceSymbolProvider = some wv) := by
  intro fs
  induction fs with
  | nil =>
    intro r r' h
    simp only [applyPResFields] at h
    cases h
    refine ⟨fun _ => rfl, ?_⟩
    intro cfs wv hc
    simp [lookupLast] at hc
  | cons kv rest ih =>
    intro r r' h
    simp only [applyPResFields] at h
    by_cases hk : kv.1 = "capabilities"
    · simp only [hk, if_pos rfl] at h
      cases hc : unmarshalPCaps r.capabilities kv.2 with
      | error e => rw [hc] at h; simp at h
      | ok caps =>
        rw [hc] at h
        simp only [] at h
        obtain ⟨hnone, hlast⟩ := ih _ _ h
        refine ⟨?_, ?_⟩
        · intro habs
          simp only [lookupLast] at habs
          cases hrest : lookupLast "capabilities" rest with
          | some v => rw [hrest] at habs; simp at habs
          | none => rw [hrest] at habs; simp [hk] at habs
        · intro cfs wv hcap hwsp
          simp only [lookupLast] at hcap
          cases hrest : lookupLast "capabilities" rest with
          | some v =>
            rw [hrest] at hcap
            simp at hcap
            exact hlast cfs wv (hcap ▸ hrest) hwsp
          | none =>
            rw [hrest] at hcap
            simp [hk] at hcap
            have hr' : r' = { r with capabilities := caps } := hnone hrest
            rw [hcap] at hc
            simp only [unmarshalPCaps] at hc
            cases hc
            rw [hr']
            simp only []
            rw [unmarshalPCapsFields_wsp, hwsp]
    · simp only [hk, if_neg hk] at h
      obtain ⟨hnone, hlast⟩ := ih _ _ h
      have hlk : lookupLast "capabilities" (kv :: rest) =
          lookupLast "capabilities" rest := by
        simp only [lookupLast]
        cases lookupLast "capabilities" rest with
        | some v => rfl
        | none => simp [hk]
      rw [hlk]
      exact ⟨hnone, hlast⟩

/-- C1: for every server response payload on which `Initialize` succeeds,
the one raw payload is decoded into both the extended and the standard
result shapes, and the merged result simultaneously carries the standard
workspace-symbol-provider capability and the vendor AST-provider flag
taken from that single payload. -/
theorem C1_initialize_merges_both_shapes
    (fs cfs : List (String × Json)) (a : Bool) (wv : Json)
    (res : CInitializeResult)
    (hok : ClangdServer.Initialize (Json.obj fs) = .ok res)
    (hcaps : lookupLast "capabilities" fs = some (Json.obj cfs))
    (hast : lookupLast "astProvider" cfs = some (Json.bool a))
    (hwsp : lookupLast "workspaceSymbolProvider" cfs = some wv) :
    res.serverCapabilities.astProvider = a ∧
    res.base.capabilities.workspaceSymbolProvider = some wv := by
  simp only [ClangdServer.Initialize] at hok
  cases hc : unmarshalCInitializeResult CInitializeResult.zero (Json.obj fs) with
  | error e => rw [hc] at hok; simp at hok
  | ok r1 =>
    rw [hc] at hok
    simp only [] at hok
    cases hp : unmarshalPInitializeResult r1.base (Json.obj fs) with
    | error e => rw [hp] at hok; simp at hok
    | ok base =>
      rw [hp] at hok
      simp only [] at hok
      cases hok
      simp only [unmarshalCInitializeResult] at hc
      simp only [unmarshalPInitializeResult] at hp
      obtain ⟨_, _, hclast⟩ := applyCResFields_ok fs _ _ hc
      obtain ⟨_, hplast⟩ := applyPResFields_ok fs _ _ hp
      exact ⟨hclast cfs a hcaps hast, hplast cfs wv hcaps hwsp⟩

/-- A concrete initialize payload whose capabilities carry both flags. -/
def c1Caps : List (String × Json) :=
  [("astProvider", Json.bool true), ("workspaceSymbolProvider", Json.bool true)]

/-- The concrete payload's field list. -/
def c1Fields : List (String × Json) := [("capabilities", Json.obj c1Caps)]

/-- The merged result `Initialize` produces on the concrete payload. -/
def c1Res : CInitializeResult :=
  { base := { capabilities := { workspaceSymbolProvider := some (Json.bool true) } },
    serverCapabilities := { astProvider := true } }

/-- Witness for C1 at a concrete payload: the decode succeeds and the
merged result carries both flags. -/
theorem C1_witness :
    ClangdServer.Initialize (Json.obj c1Fields) = .ok c1Res ∧
    c1Res.serverCapabilities.astProvider = true ∧
    c1Res.base.capabilities.workspaceSymbolProvider = some (Json.bool true) :=
  ⟨rfl,
    C1_initialize_merges_both_shapes c1Fields c1Caps true (Json.bool true) c1Res
      rfl rfl rfl rfl⟩

/-! ## Lemmas on the close-all loop -/

/-- The aggregate entries `CloseAll` collects: one formatted entry per
document whose `didClose` fails, in collection order, successes skipped;
`idx` is the position in the send order at which the loop starts. -/
def closeFailures : List LSPDocument → (LSPNotif → Nat → Option String) →
    Nat → List String
  | [], _, _ => []
  | d :: rest, respond, idx =>
    match respond (LSPNotif.didClose d.uri) idx with
    | some e =>
      ("failed to close " ++ d.uri ++ ": failed to call LSP close: " ++ e) ::
        closeFailures rest respond (idx + 1)
    | none => closeFailures rest respond (idx + 1)

/-- The close loop sends `didClose` for every document, in order, and
collects exactly the failure entries; the filesystem and the responder
are untouched. -/
theorem closeLoop_spec :
    ∀ (docs : List LSPDocument) (w : LSPWorld) (errs : List String),
      closeLoop docs w errs =
        ({ w with sent := w.sent ++ docs.map (fun d => LSPNotif.didClose d.uri) },
          errs ++ closeFailures docs w.respond w.sent.length) := by
  intro docs
  induction docs with
  | nil => intro w errs; simp [closeLoop, closeFailures]
  | cons d rest ih =>
    intro w errs
    simp only [closeLoop, LSPDocument.Close]
    cases hr : w.respond (LSPNotif.didClose d.uri) w.sent.length with
    | some e =>
      simp only []
      rw [ih]
      simp [closeFailures, hr, List.append_assoc]
      rw [← String.append_assoc]
      congr 1
      rw [String.append_assoc]
      rfl
    | none =>
      simp only []
      rw [ih]
      simp [closeFailures, hr, List.append_assoc]

/-- C7: for every collection state, `CloseAll` calls `didClose` for every
tracked document even when some closes fail, never stopping early, and
returns nil when all succeed or one aggregate error joining an entry for
every document whose close failed. -/
theorem C7_closeall_attempts_all_and_aggregates :
    ∀ (coll : LSPDocumentCollection) (w : LSPWorld),
      (coll.CloseAll w).1.sent =
        w.sent ++ coll.documents.map (fun d => LSPNotif.didClose d.uri) ∧
      (coll.CloseAll w).1.files = w.files ∧
      (coll.CloseAll w).1.respond = w.respond ∧
      (coll.CloseAll w).2 =
        (if closeFailures coll.documents w.respond w.sent.length = [] then none
          else some (String.intercalate ", "
            (closeFailures coll.documents w.respond w.sent.length))) := by
  intro coll w
  simp only [LSPDocumentCollection.CloseAll, closeLoop_spec, List.nil_append]
  refine ⟨?_, ?_, ?_, ?_⟩
  · split <;> rfl
  · split <;> rfl
  · split <;> rfl
  · rcases h : closeFailures coll.documents w.respond w.sent.length with _ | ⟨e, es⟩
    · simp [h]
    · simp [h]

/-- C10: `CloseAll` never removes documents: the caller's collection after
the call is the one before it, and a second `CloseAll` re-sends a
`didClose` notification for every still-tracked document. -/
theorem C10_closeall_keeps_documents :
    ∀ (coll : LSPDocumentCollection) (w : LSPWorld),
      (coll.CloseAllCaller w).1 = coll ∧
      (coll.CloseAll (coll.CloseAll w).1).1.sent =
        w.sent ++ coll.documents.map (fun d => LSPNotif.didClose d.uri)
              ++ coll.documents.map (fun d => LSPNotif.didClose d.uri) := by
  intro coll w
  refine ⟨rfl, ?_⟩
  simp only [LSPDocumentCollection.CloseAll, closeLoop_spec, List.nil_append]
  split <;> split <;> simp [List.append_assoc]

/-- C9: for every URI whose file cannot be read, `Open` returns the wrapped
read error, sends no `didOpen` notification (the world is unchanged), and
leaves the caller's collection unchanged. -/
theorem C9_open_unreadable_file_no_effect :
    ∀ (coll : LSPDocumentCollection) (w : LSPWorld) (u e : String),
      w.files u = .error e →
      coll.Open u w =
        (coll, w,
          some ("failed to open document: failed to read file contents: " ++ e)) := by
  intro coll w u e h
  simp only [LSPDocumentCollection.Open, LSPDocumentCollection.OpenBody,
    LSPDocument.Open, h]
  rw [← String.append_assoc]
  rfl

/-- A world whose filesystem rejects every read. -/
def c9World : LSPWorld :=
  { files := fun _ => .error "no such file or directory",
    respond := fun _ _ => none,
    sent := [] }

/-- An empty collection for the C9 witness. -/
def c9Coll : LSPDocumentCollection := { documents := [] }

/-- Witness for C9 at a concrete unreadable URI. -/
theorem C9_witness :
    c9World.files "file:///missing.c" = .error "no such file or directory" ∧
    c9Coll.Open "file:///missing.c" c9World =
      (c9Coll, c9World,
        some ("failed to open document: failed to read file contents: " ++
          "no such file or directory")) :=
  ⟨rfl, C9_open_unreadable_file_no_effect c9Coll c9World "file:///missing.c"
    "no such file or directory" rfl⟩

/-- A world where every file read and every notification succeeds. -/
def c2World : LSPWorld :=
  { files := fun _ => .ok "int keymap;",
    respond := fun _ _ => none,
    sent := [] }

/-- The collection as constructed by `NewLSPManager`: no documents. -/
def c2Coll : LSPDocumentCollection := { documents := [] }

/-- C2: evaluation at the failing input.  One `Open` on the empty
collection succeeds and sends `didOpen`, yet the caller's collection still
tracks nothing — the value-receiver append is lost — so the subsequent
`CloseAll` issues zero `didClose` notifications instead of one and returns
nil. -/
theorem C2_open_never_records_document :
    (c2Coll.Open "file:///keymap.c" c2World).2.2 = none ∧
    (c2Coll.Open "file:///keymap.c" c2World).2.1.sent =
      [LSPNotif.didOpen "file:///keymap.c" "int keymap;"] ∧
    (c2Coll.Open "file:///keymap.c" c2World).1.documents = [] ∧
    ((c2Coll.Open "file:///keymap.c" c2World).1.CloseAll
        (c2Coll.Open "file:///keymap.c" c2World).2.1).1.sent =
      [LSPNotif.didOpen "file:///keymap.c" "int keymap;"] ∧
    ((c2Coll.Open "file:///keymap.c" c2World).1.CloseAll
        (c2Coll.Open "file:///keymap.c" c2World).2.1).2 = none :=
  ⟨rfl, rfl, rfl, rfl, rfl⟩

/-! ## The supervisor lifecycle -/

/-- Cancelling an already-cancelled context is a no-op. -/
theorem cancelCtx_idem (s : CmdCloserState) :
    s.cancelCtx.cancelCtx = s.cancelCtx := by
  simp only [CmdCloserState.cancelCtx]
  split <;> simp

/-- Every lifecycle event funnels into the idempotent context cancel, so a
run is either untouched (no event yet) or exactly one cancellation deep. -/
theorem runCmd_eq :
    ∀ (evs : List CmdEvent) (s : CmdCloserState),
      runCmd s evs = if evs = [] then s else s.cancelCtx := by
  intro evs
  induction evs with
  | nil => intro s; simp [runCmd]
  | cons ev rest ih =>
    intro s
    have hstep : stepCmd s ev = s.cancelCtx := by cases ev <;> rfl
    have : runCmd s (ev :: rest) = runCmd (stepCmd s ev) rest := by
      simp [runCmd]
    rw [this, ih, hstep]
    rcases rest with _ | ⟨r, rs⟩
    · simp
    · simp [cancelCtx_idem]

/-- C5: for every interleaving of the watchdog observing the process exit
and an explicit `Close`, the `Done` channel fires at most once, and exactly
once as soon as either path has run — the lifetime scope is cancelled at
most once even when the two paths race. -/
theorem C5_done_fires_exactly_once :
    ∀ evs : List CmdEvent,
      (runCmd NewCmdCloserState evs).doneFires ≤ 1 ∧
      (evs ≠ [] → (runCmd NewCmdCloserState evs).doneFires = 1) := by
  intro evs
  rw [runCmd_eq]
  rcases evs with _ | ⟨e, es⟩
  · simp [NewCmdCloserState]
  · simp [NewCmdCloserState, CmdCloserState.cancelCtx]

/-- Witness for C5 at the racing interleaving: an explicit `Close` followed
by the process exit still fires `Done` exactly once. -/
theorem C5_witness :
    ([CmdEvent.closeCall, CmdEvent.procExit] ≠ ([] : List CmdEvent)) ∧
    (runCmd NewCmdCloserState [CmdEvent.closeCall, CmdEvent.procExit]).doneFires = 1 :=
  ⟨by simp,
    (C5_done_fires_exactly_once [CmdEvent.closeCall, CmdEvent.procExit]).2 (by simp)⟩

/-- C6 counterexample: when closing stdin fails, `Close` returns that error
immediately — the stdout and stderr closes are skipped, contradicting the
claim that no stream's close is skipped because of a preceding failure. -/
theorem C6_counterexample :
    (CmdCloser.Close (some "bad fd") none none).1 =
      [CloseAction.cancelCtx, CloseAction.closeStream CmdStream.stdin] ∧
    CloseAction.closeStream CmdStream.stdout ∉
      (CmdCloser.Close (some "bad fd") none none).1 ∧
    CloseAction.closeStream CmdStream.stderr ∉
      (CmdCloser.Close (some "bad fd") none none).1 ∧
    (CmdCloser.Close (some "bad fd") none none).2 =
      some "failed to close stdin: bad fd" := by
  refine ⟨rfl, ?_, ?_, rfl⟩ <;> simp [CmdCloser.Close]

/-- C6 amended: `Close` cancels the lifetime scope first and then closes
stdin, stdout, stderr in order, but short-circuits: it returns the first
close error, and a stream after a failing one is never closed; nil is
returned exactly when all three closes succeed. -/
theorem C6_close_short_circuits :
    ∀ eStdin eStdout eStderr : Option String,
      (CmdCloser.Close eStdin eStdout eStderr).1.head? =
        some CloseAction.cancelCtx ∧
      CloseAction.closeStream CmdStream.stdin ∈
        (CmdCloser.Close eStdin eStdout eStderr).1 ∧
      (CloseAction.closeStream CmdStream.stdout ∈
        (CmdCloser.Close eStdin eStdout eStderr).1 ↔ eStdin = none) ∧
      (CloseAction.closeStream CmdStream.stderr ∈
        (CmdCloser.Close eStdin eStdout eStderr).1 ↔
          (eStdin = none ∧ eStdout = none)) ∧
      ((CmdCloser.Close eStdin eStdout eStderr).2 = none ↔
        (eStdin = none ∧ eStdout = none ∧ eStderr = none)) := by
  intro eStdin eStdout eStderr
  rcases eStdin with _ | a <;> rcases eStdout with _ | b <;>
    rcases eStderr with _ | c <;> simp [CmdCloser.Close]

/-! ## The notification router -/

/-- A manager as `NewLSPManager` builds it: fresh notifications, nobody
yet waiting on the completion channel. -/
def freshManager : LSPManagerState := { lspNotifications := NewLSPNotifications }

/-- The background-index end notification as the server sends it. -/
def endProgressParams : Json :=
  Json.obj [("token", Json.str "backgroundIndexProgress"),
            ("value", Json.obj [("kind", Json.str "end")])]

/-- C3 counterexample: on a fresh manager with no waiter listening, the
background-index end notification leaves the handler blocked on the
unbuffered channel send — publishing does block the notification handler
when no waiter is listening. -/
theorem C3_counterexample :
    HandleLSPMsg freshManager MethodProgress endProgressParams =
      HandlerOutcome.blockedOnPublish := rfl

/-- C3 amended: the completion signal is an unbuffered single-receiver
channel send with no once-guard: handling a background-index end
notification blocks the handler until some waiter is concurrently
receiving, completes by handing the signal to exactly one waiter when `n`
are blocked receiving, and does so anew for every end notification, so a
waiter that starts receiving only after an earlier signal was consumed
waits for the next one instead of returning immediately. -/
theorem C3_publish_is_blocking_rendezvous :
    ∀ n : Nat,
      HandleLSPMsg
        { lspNotifications :=
          { backgroundIndexDone := { capacity := 0, buffered := 0, receivers := n } } }
        MethodProgress endProgressParams =
        (if n = 0 then HandlerOutcome.blockedOnPublish
          else HandlerOutcome.replied
            { capacity := 0, buffered := 0, receivers := n - 1 }) := by
  intro n
  have h : HandleLSPMsg
      { lspNotifications :=
        { backgroundIndexDone := { capacity := 0, buffered := 0, receivers := n } } }
      MethodProgress endProgressParams =
      (match GoChan.trySend { capacity := 0, buffered := 0, receivers := n } with
        | some c' => HandlerOutcome.replied c'
        | none => HandlerOutcome.blockedOnPublish) := rfl
  rw [h]
  cases n with
  | zero => rfl
  | succ m =>
    have hs : GoChan.trySend { capacity := 0, buffered := 0, receivers := m + 1 } =
        some { capacity := 0, buffered := 0, receivers := m } := by
      simp [GoChan.trySend]
    rw [hs, if_neg (Nat.succ_ne_zero m)]
    simp

/-- C4 counterexample: a `$/progress` message whose payload is not a JSON
object fails the envelope decode, and the handler returns an error instead
of logging and dropping the message. -/
theorem C4_counterexample :
    HandleLSPMsg freshManager MethodProgress (Json.arr []) =
      HandlerOutcome.errored
        ("failed to unmarshall progress notification params: " ++
          "cannot unmarshal value into Go struct ProgressParams") := rfl

/-- C4 amended: a message with an unrecognized method is dropped with a
null reply and a nil return, but a `$/progress` message whose payload
fails to decode makes the handler return the decode error to the serve
loop instead of dropping the message. -/
theorem C4_unrecognized_dropped_but_decode_failure_errors :
    ∀ (m : LSPManagerState) (method : String) (params : Json),
      (method ≠ MethodProgress →
        HandleLSPMsg m method params =
          HandlerOutcome.replied m.lspNotifications.backgroundIndexDone) ∧
      (∀ e, unmarshalProgressParams params = .error e →
        HandleLSPMsg m MethodProgress params =
          HandlerOutcome.errored
            ("failed to unmarshall progress notification params: " ++ e)) := by
  intro m method params
  constructor
  · intro h
    simp [HandleLSPMsg, h]
  · intro e he
    simp [HandleLSPMsg, he]

/-- Witness for C4 amended at concrete messages: an `initialized`
notification is replied to with null, and a malformed progress payload
yields the wrapped decode error. -/
theorem C4_witness :
    (("initialized" : String) ≠ MethodProgress ∧
      HandleLSPMsg freshManager "initialized" Json.null =
        HandlerOutcome.replied freshManager.lspNotifications.backgroundIndexDone) ∧
    (unmarshalProgressParams (Json.num 7) =
        .error "cannot unmarshal value into Go struct ProgressParams" ∧
      HandleLSPMsg freshManager MethodProgress (Json.num 7) =
        HandlerOutcome.errored
          ("failed to unmarshall progress notification params: " ++
            "cannot unmarshal value into Go struct ProgressParams")) :=
  ⟨⟨by simp [MethodProgress],
      (C4_unrecognized_dropped_but_decode_failure_errors freshManager
        "initialized" Json.null).1 (by simp [MethodProgress])⟩,
    ⟨rfl,
      (C4_unrecognized_dropped_but_decode_failure_errors freshManager
        "initialized" (Json.num 7)).2 _ rfl⟩⟩

/-- C8 counterexample: a background-index progress message whose richer
payload fails to decode (its `value` is not an object) makes the handler
return an error without sending any reply — so not every inbound message
receives a null-valued successful reply. -/
theorem C8_counterexample :
    HandleLSPMsg freshManager MethodProgress
        (Json.obj [("token", Json.str "backgroundIndexProgress"),
                   ("value", Json.num 3)]) =
      HandlerOutcome.errored
        ("failed to unmarshall background index progress params: " ++
          "cannot unmarshal value into Go struct value") ∧
    (HandleLSPMsg freshManager MethodProgress
        (Json.obj [("token", Json.str "backgroundIndexProgress"),
                   ("value", Json.num 3)])).repliedNull = false :=
  ⟨rfl, rfl⟩

/-- C8 amended: the handler sends the null successful reply exactly when it
does not hit a progress decode failure and does not stay blocked publishing
the completion signal; decode failures return an error with no reply. -/
theorem C8_null_reply_characterization :
    ∀ (m : LSPManagerState) (method : String) (params : Json),
      (HandleLSPMsg m method params).repliedNull =
        repliesNullSpec m method params := by
  intro m method params
  simp only [HandleLSPMsg, repliesNullSpec]
  by_cases h : method = MethodProgress
  · simp only [h, if_pos rfl]
    cases unmarshalProgressParams params with
    | error e => rfl
    | ok p =>
      simp only []
      by_cases ht : p.token = ProgressTokenBackgroundIndexProgress
      · simp only [ht, if_pos rfl]
        cases unmarshalBackgroundIndexProgressParams params with
        | error e => rfl
        | ok bg =>
          simp only []
          by_cases hkind : bg.kind = BackgroundIndexProgressEnd
          · simp only [hkind, if_pos rfl]
            cases m.lspNotifications.backgroundIndexDone.trySend with
            | some c' => rfl
            | none => rfl
          · simp [hkind, HandlerOutcome.repliedNull]
      · simp [ht, HandlerOutcome.repliedNull]
  · simp [h, HandlerOutcome.repliedNull]

end QmkGui
